import Mathlib

/-!
Shallow embedding of the GPU-resident spatial sort core of the
generative-matter repository (src/compute.rs, src/particles.rs,
src/radix_sort.rs, src/uniforms.rs, src/main.rs).

Modelling conventions:
* Device buffers are identified by name (`BufName`); their byte contents
  live in an explicit `GpuState`.  A `wgpu::CommandEncoder` is modelled as
  the list of commands (`Cmd`) recorded on it, in recording order.
* Rust `u64` arithmetic is `Nat` with an explicit `% u64Mod` wherever the
  source can overflow (release-profile wrapping semantics; in a debug
  build the same overflow panics, so in either profile an overflowing
  computation never produces the mathematically exact value).
* `f32` values are carried as their 4-byte bit patterns (a `Nat < 2^32`);
  the claims under study only move these bytes around, never do float
  arithmetic on them.
* Fallible construction is explicit: `Outcome` has an `ok` case, a typed
  `err` case (`ComputeError`), and an `aborted` case standing for a Rust
  panic (`unwrap`/`expect` on a failure, `NonZeroU64::new(0).unwrap()`).
-/

/-- Modulus of Rust `u64` arithmetic. -/
def u64Mod : Nat := 2 ^ 64

/-- Names of the device buffers appearing in the repository.  `positionIn`,
`positionOut` and `velocity` are the buffers of `ParticleSystem`
(src/particles.rs); `velocityIn`/`velocityOut` are the double-buffered
velocity pair of the particle-system revision that src/radix_sort.rs binds
(that revision itself is not in the repository, only its buffer names are
referenced); `zerosStaging` stands for the transient zero-filled staging
buffer created by `RadixSort::clear_buffer`. -/
inductive BufName where
  | positionIn
  | positionOut
  | velocity
  | velocityIn
  | velocityOut
  | prefixSum
  | binCount
  | uniformBuf
  | zerosStaging
deriving DecidableEq, Repr

/-- Compiled shader identity (the shader sources are external files). -/
inductive ShaderId where
  | countShader
  | scanShader
  | reorderShader
  | updateShader
deriving DecidableEq, Repr

/-- Device resources created by `Compute::new`, in creation order. -/
inductive DeviceRes where
  | bindGroupLayout
  | bindGroup
  | pipelineLayout
  | computePipeline
deriving DecidableEq, Repr

/-- Error type of `Compute::new` (src/compute.rs lines 3-7). -/
inductive ComputeError where
  | MissingBufferSizes
  | BufferCountAndBufferSizeCountMismatch
deriving DecidableEq, Repr

/-- Result of a fallible Rust constructor: `ok` for a normal return,
`err e` for `Err(e)`, `aborted` for a panic. -/
inductive Outcome (α : Type) where
  | ok (a : α)
  | err (e : ComputeError)
  | aborted
deriving DecidableEq, Repr

/-- The `Compute` struct (src/compute.rs lines 9-12).  The source stores a
`bind_group` and a `pipeline`; the bind group is determined by the bound
buffers (positional storage bindings followed by the optional uniform
binding) and the pipeline by the shader module, which is what we keep. -/
structure Compute where
  storageBindings : List BufName
  uniformBinding : Option BufName
  shader : ShaderId
deriving DecidableEq, Repr

/-- Commands recorded on a `wgpu::CommandEncoder`, in recording order.
`dispatch` carries the three work-group counts of `cpass.dispatch`. -/
inductive Cmd where
  | copyBufferToBuffer (src : BufName) (srcOffset : Nat) (dst : BufName) (dstOffset : Nat) (size : Nat)
  | beginComputePass
  | setPipeline (shader : ShaderId)
  | setBindGroup (storage : List BufName) (uniform : Option BufName)
  | dispatch (x y z : Nat)
deriving DecidableEq, Repr

/-- Transcription of `Compute::new` (src/compute.rs lines 17-77).  Returns
the construction outcome together with the list of device resources created
before returning.  The source checks the buffer/size lists first and
returns its typed errors before building anything; with both lists present
and of equal length it wraps each size in `NonZeroU64::new(size).unwrap()`,
which panics when a size is `0` (modelled by `aborted`); only then are the
bind group layout, bind group, pipeline layout and pipeline built. -/
def Compute.new (buffers : Option (List BufName)) (buffer_sizes : Option (List Nat))
    (uniform_buffer : Option BufName) (cs_mod : ShaderId) :
    Outcome Compute × List DeviceRes :=
  match buffers with
  | some b =>
    match buffer_sizes with
    | some s =>
      if b.length ≠ s.length then
        (Outcome.err ComputeError.BufferCountAndBufferSizeCountMismatch, [])
      else if s.contains 0 then
        (Outcome.aborted, [])
      else
        (Outcome.ok { storageBindings := b, uniformBinding := uniform_buffer, shader := cs_mod },
          [DeviceRes.bindGroupLayout, DeviceRes.bindGroup,
            DeviceRes.pipelineLayout, DeviceRes.computePipeline])
    | none => (Outcome.err ComputeError.MissingBufferSizes, [])
  | none =>
    (Outcome.ok { storageBindings := [], uniformBinding := uniform_buffer, shader := cs_mod },
      [DeviceRes.bindGroupLayout, DeviceRes.bindGroup,
        DeviceRes.pipelineLayout, DeviceRes.computePipeline])

/-- Transcription of `Compute::compute` (src/compute.rs lines 79-87): begin
a compute pass, set the pipeline, set bind group 0, and issue a 1-D
dispatch of `num_groups` work groups. -/
def Compute.compute (c : Compute) (num_groups : Nat) : List Cmd :=
  [Cmd.beginComputePass,
    Cmd.setPipeline c.shader,
    Cmd.setBindGroup c.storageBindings c.uniformBinding,
    Cmd.dispatch num_groups 1 1]

/-- A 2-D `f32` vector carried as the bit patterns of its two components
(each a `Nat < 2^32`); matches `nannou::Vec2` as stored in the particle
buffers. -/
structure Vec2 where
  x : Nat
  y : Nat
deriving DecidableEq, Repr

/-- Little-endian byte decomposition of a 32-bit pattern, matching
`float_as_bytes` (src/particles.rs lines 110-112), which exposes the raw
bytes of an `f32`. -/
def float_as_bytes (b : Nat) : List Nat :=
  [b % 256, b / 256 % 256, b / 65536 % 256, b / 16777216 % 256]

/-- Transcription of `vectors_as_byte_vec` (src/particles.rs lines
114-121): concatenate the bytes of `x` then `y` for each vector. -/
def vectors_as_byte_vec (data : List Vec2) : List Nat :=
  data.foldl (fun bytes v => bytes ++ float_as_bytes v.x ++ float_as_bytes v.y) []

/-- The `ParticleSystem` struct (src/particles.rs lines 9-16), with device
buffers represented by their names.  The `compute` field is the physics
update kernel built in the constructor. -/
structure ParticleSystem where
  position_buffer_in : BufName
  position_buffer_out : BufName
  velocity_buffer : BufName
  buffer_size : Nat
  initial_positions : List Vec2
  compute : Compute
deriving DecidableEq, Repr

/-- Initial device contents written by `ParticleSystem::new` through the
three `create_buffer_init` calls. -/
structure ParticleInit where
  position_in_contents : List Nat
  position_out_contents : List Nat
  velocity_contents : List Nat
deriving DecidableEq, Repr

/-- Transcription of `ParticleSystem::new` (src/particles.rs lines 18-97).
The `rand::thread_rng().gen_range` sampling is external nondeterminism and
is supplied as the oracle `sample`, whose value at `i` is the `i`-th
iteration's (position, velocity) pair; the loop runs `particle_count`
times.  Both position buffers are initialised from the same
`position_bytes`, `buffer_size` is `particle_count * size_of::<Vec2>()`
with `size_of::<Vec2>() = 8`, and the constructor ends with
`Compute::new(...).unwrap()`, a panic (modelled `aborted`) whenever that
construction does not return `Ok` - in particular when `buffer_size = 0`. -/
def ParticleSystem.new (particle_count : Nat) (sample : Nat → Vec2 × Vec2) :
    Outcome (ParticleSystem × ParticleInit) :=
  let positions := (List.range particle_count).map (fun i => (sample i).1)
  let velocities := (List.range particle_count).map (fun i => (sample i).2)
  let position_bytes := vectors_as_byte_vec positions
  let velocity_bytes := vectors_as_byte_vec velocities
  let buffer_size := particle_count * 8
  match (Compute.new (some [BufName.positionIn, BufName.positionOut, BufName.velocity])
      (some [buffer_size, buffer_size, buffer_size])
      (some BufName.uniformBuf) ShaderId.updateShader).1 with
  | Outcome.ok c =>
    Outcome.ok
      ({ position_buffer_in := BufName.positionIn,
         position_buffer_out := BufName.positionOut,
         velocity_buffer := BufName.velocity,
         buffer_size := buffer_size,
         initial_positions := positions,
         compute := c },
       { position_in_contents := position_bytes,
         position_out_contents := position_bytes,
         velocity_contents := velocity_bytes })
  | _ => Outcome.aborted

/-- Transcription of `ParticleSystem::copy_positions_from_out_to_in`
(src/particles.rs lines 99-107): encode one buffer-to-buffer copy of the
whole out-position buffer (offset 0, `buffer_size` bytes) over the
in-position buffer. -/
def ParticleSystem.copy_positions_from_out_to_in (ps : ParticleSystem) : Cmd :=
  Cmd.copyBufferToBuffer ps.position_buffer_out 0 ps.position_buffer_in 0 ps.buffer_size

/-- Device memory: the byte contents of every named buffer. -/
def GpuState : Type := BufName → List Nat

/-- Byte-level effect of `copy_buffer_to_buffer`: the `size` bytes of `src`
starting at `srcOffset` replace the bytes of `dst` starting at
`dstOffset`. -/
def copyBytes (src : List Nat) (srcOffset : Nat) (dst : List Nat) (dstOffset size : Nat) :
    List Nat :=
  dst.take dstOffset ++ (src.drop srcOffset).take size ++ dst.drop (dstOffset + size)

/-- Effect of one encoded command on device memory.  Compute-pass commands
run external shader code and are out of scope here (identity); only the
copy command has a byte-level semantics the host code fixes. -/
def applyCmd (st : GpuState) : Cmd → GpuState
  | Cmd.copyBufferToBuffer src srcOffset dst dstOffset size =>
    fun b => if b = dst then copyBytes (st src) srcOffset (st dst) dstOffset size else st b
  | _ => st

/-- The uniform fields that the sort subsystem reads
(`uniforms.data.particle_count` and `uniforms.data.num_bins`).  Both are
`u32` (`uint`) in the source, so each is below `2^32`. -/
structure Uniforms where
  particle_count : Nat
  num_bins : Nat
deriving DecidableEq, Repr

/-- The `count_buffers` vector of `RadixSort::new` (src/radix_sort.rs line
75): the count kernel binds the out-position buffer and the prefix-sum
buffer, in that order. -/
def count_buffers : List BufName :=
  [BufName.positionOut, BufName.prefixSum]

/-- The `scan_buffers` vector of `RadixSort::new` (src/radix_sort.rs line
88): the scan kernel binds only the prefix-sum buffer. -/
def scan_buffers : List BufName :=
  [BufName.prefixSum]

/-- The `reorder_buffers` vector of `RadixSort::new` (src/radix_sort.rs
lines 101-108): out/in positions, out/in velocities, the prefix-sum buffer
and the bin-count buffer. -/
def reorder_buffers : List BufName :=
  [BufName.positionOut, BufName.positionIn,
    BufName.velocityOut, BufName.velocityIn,
    BufName.prefixSum, BufName.binCount]

/-- The `RadixSort` struct (src/radix_sort.rs lines 10-20).  The `debug`
renderer is out-of-scope rendering and is omitted. -/
structure RadixSort where
  count : Compute
  scan : Compute
  reorder : Compute
  buffer_size : Nat
  bin_count_buffer : BufName
  prefix_sum_buffer : BufName
  num_bins : Nat
  particle_count : Nat
deriving DecidableEq, Repr

/-- Transcription of `RadixSort::new` (src/radix_sort.rs lines 24-153),
given the particle system's `buffer_size` and the uniform data it reads.
`buffer_size` is `num_bins * size_of::<uint>()` with `size_of::<uint>() =
4`; since `num_bins : u32` the `u64` product cannot overflow, so no
modulus is needed.  The three `Compute::new` calls are each followed by
`.expect(..)`, so any non-`Ok` outcome is a panic (`aborted`).  Both sort
tables are created zero-filled by `create_buffer_init` with a `zeros`
vector; the `CustomRenderer` debug pipeline is external rendering and is
not modelled. -/
def RadixSort.new (particle_buffer_size : Nat) (u : Uniforms) : Outcome RadixSort :=
  let buffer_size := u.num_bins * 4
  match (Compute.new (some count_buffers)
      (some [particle_buffer_size, buffer_size])
      (some BufName.uniformBuf) ShaderId.countShader).1 with
  | Outcome.ok count =>
    match (Compute.new (some scan_buffers)
        (some [buffer_size])
        (some BufName.uniformBuf) ShaderId.scanShader).1 with
    | Outcome.ok scan =>
      match (Compute.new (some reorder_buffers)
          (some [particle_buffer_size, particle_buffer_size, particle_buffer_size,
            particle_buffer_size, buffer_size, buffer_size])
          (some BufName.uniformBuf) ShaderId.reorderShader).1 with
      | Outcome.ok reorder =>
        Outcome.ok
          { count := count,
            scan := scan,
            reorder := reorder,
            buffer_size := buffer_size,
            bin_count_buffer := BufName.binCount,
            prefix_sum_buffer := BufName.prefixSum,
            num_bins := u.num_bins,
            particle_count := u.particle_count }
      | _ => Outcome.aborted
    | _ => Outcome.aborted
  | _ => Outcome.aborted

/-- Transcription of `RadixSort::clear_buffer` (src/radix_sort.rs lines
155-168): create a transient zero-filled staging buffer of `buffer_size`
bytes and encode a copy of it over the whole target buffer. -/
def RadixSort.clear_buffer (rs : RadixSort) (buffer : BufName) : List Cmd :=
  [Cmd.copyBufferToBuffer BufName.zerosStaging 0 buffer 0 rs.buffer_size]

/-- Transcription of `RadixSort::clear_buffers` (src/radix_sort.rs lines
170-173): clear the bin-count buffer, then the prefix-sum buffer. -/
def RadixSort.clear_buffers (rs : RadixSort) : List Cmd :=
  rs.clear_buffer rs.bin_count_buffer ++ rs.clear_buffer rs.prefix_sum_buffer

/-- Transcription of `RadixSort::update` (src/radix_sort.rs lines
175-181).  The body encodes exactly three compute passes: count with
`particle_count` groups, scan with `num_bins` groups, reorder with
`particle_count` groups.  The `self.clear_buffers(device, encoder)` call
(line 176) and the `self.debug.render(encoder)` call (line 180) are
commented out in the source and therefore absent here. -/
def RadixSort.update (rs : RadixSort) : List Cmd :=
  Compute.compute rs.count rs.particle_count ++
    Compute.compute rs.scan rs.num_bins ++
      Compute.compute rs.reorder rs.particle_count

/-- Fuel-bounded floor base-2 logarithm; `log2fuel f n` equals
`floor(log2 n)` for `2 ≤ n < 2^f`. -/
def log2fuel : Nat → Nat → Nat
  | 0, _ => 0
  | fuel + 1, n => if 2 ≤ n then log2fuel fuel (n / 2) + 1 else 0

/-- Exponent of `u64::next_power_of_two`: `0` for inputs `0` and `1`, else
`floor(log2 (n-1)) + 1`.  Fuel `64` suffices for every `u64` input. -/
def np2exp (n : Nat) : Nat :=
  if n ≤ 1 then 0 else log2fuel 64 (n - 1) + 1

/-- Model of Rust `u64::next_power_of_two`: the least power of two that is
`≥ max n 1`, wrapped at `2^64` (a release build returns `0` for inputs
above `2^63`; a debug build panics there, and in either profile no value
above `2^63` is ever produced). -/
def nextPow2 (n : Nat) : Nat :=
  2 ^ np2exp n % u64Mod

/-- The doubling loop of `BinConfig::new` (src/radix_sort.rs lines
199-205 and 215-221): `k` iterations of `grid *= 2` in `u64`. -/
def doubleLoop : Nat → Nat → Nat
  | g, 0 => g
  | g, k + 1 => doubleLoop (g * 2 % u64Mod) k

/-- The halving loop of `BinConfig::new` (src/radix_sort.rs lines 207-213
and 223-229): `k` iterations of `grid /= 2` in `u64`. -/
def halveLoop : Nat → Nat → Nat
  | g, 0 => g
  | g, k + 1 => halveLoop (g / 2) k

/-- An IEEE-754 binary64 (`f64`) value as it occurs in `BinConfig`:
`finite q` carries the exact rational value of a finite double, and the
two non-finite results reachable here are `inf` (positive infinity) and
`nan`. -/
inductive F64 where
  | finite (q : ℚ)
  | inf
  | nan
deriving DecidableEq, Repr

/-- Round-to-nearest-even of a natural number to 53 significant bits: the
integer value of `n as f64` under IEEE-754 binary64 conversion (exact for
`n < 2^53`; otherwise the value is cut to a multiple of `2^(e-52)` for
`e = floor(log2 n)`, with ties going to the even quotient). -/
def rnd53 (n : Nat) : Nat :=
  if n < 2 ^ 53 then n
  else
    let s := log2fuel 64 n - 52
    let q := n / 2 ^ s
    let r := n % 2 ^ s
    if r * 2 < 2 ^ s then q * 2 ^ s
    else if 2 ^ s < r * 2 then (q + 1) * 2 ^ s
    else (if q % 2 = 0 then q else q + 1) * 2 ^ s

/-- The `f64` division `n as f64 / g as f64` as it occurs in
`BinConfig::new`, where `g` is a grid dimension.  Every grid dimension is
zero or a power of two at most `2^63` (theorem
`binConfig_grid_pow2_or_zero` below), so after the rounded conversions the
division itself is exact under IEEE-754: dividing by a power of two only
shifts the exponent, and no overflow or underflow can occur in the `u64`
range.  Division by zero follows IEEE-754: `0.0 / 0.0` is NaN and
`x / 0.0` is positive infinity for `x > 0`. -/
def f64DivByPow2 (n g : Nat) : F64 :=
  if g = 0 then (if n = 0 then F64.nan else F64.inf)
  else F64.finite ((rnd53 n : ℚ) / (rnd53 g : ℚ))

/-- The `BinConfig` struct (src/radix_sort.rs lines 184-191).  `bin_x` and
`bin_y` are `f64` in the source and are modelled by `F64`. -/
structure BinConfig where
  grid_x : Nat
  grid_y : Nat
  bin_x : F64
  bin_y : F64
  num_bins : Nat
deriving DecidableEq, Repr

/-- Transcription of `BinConfig::new` (src/radix_sort.rs lines 194-243):
start from `next_power_of_two` of each raw dimension, run the doubling
loop when the scale exponent is positive and the halving loop when it is
negative (the two `if` blocks of the source are sequential and mutually
exclusive), then derive the bin sizes by `f64` division
(`raw_width as f64 / grid_x as f64`) and `num_bins` as the `u64` product
of the grid dimensions. -/
def BinConfig.new (raw_width raw_height : Nat) (x_scale y_scale : Int) : BinConfig :=
  let gx0 := nextPow2 raw_width
  let gy0 := nextPow2 raw_height
  let gx1 := if 0 < x_scale then doubleLoop gx0 x_scale.toNat else gx0
  let gx := if x_scale < 0 then halveLoop gx1 (-x_scale).toNat else gx1
  let gy1 := if 0 < y_scale then doubleLoop gy0 y_scale.toNat else gy0
  let gy := if y_scale < 0 then halveLoop gy1 (-y_scale).toNat else gy1
  { grid_x := gx,
    grid_y := gy,
    bin_x := f64DivByPow2 raw_width gx,
    bin_y := f64DivByPow2 raw_height gy,
    num_bins := gx * gy % u64Mod }

/-- A `u64` value that is zero or a power of two representable in `u64`;
the invariant of every grid dimension `BinConfig::new` computes. -/
def pow2OrZero (g : Nat) : Prop :=
  g = 0 ∨ ∃ k, k ≤ 63 ∧ g = 2 ^ k

/-- Modelled from the spec: the Scan stage's shader (`scan.comp`) is not
part of the repository; the spec defines its output as the exclusive
prefix sum of the bin-count table, entry `i` being the sum of the counts
of bins `0..i`. -/
def scanStage (count : List Nat) : List Nat :=
  (List.range count.length).map (fun i => (count.take i).sum)

/-- Error component of a construction outcome. -/
def errOf {α : Type} : Outcome α → Option ComputeError
  | Outcome.err e => some e
  | _ => none

/-- Specification-side classification of `Compute::new` configuration
errors, following the spec's wording: with both a buffer list and a size
list present, a length mismatch is `BufferCountAndBufferSizeCountMismatch`;
a buffer list without a size list is `MissingBufferSizes`; otherwise no
configuration error. -/
def expectedErr (buffers : Option (List BufName)) (buffer_sizes : Option (List Nat)) :
    Option ComputeError :=
  match buffers, buffer_sizes with
  | some b, some s =>
    if b.length = s.length then none
    else some ComputeError.BufferCountAndBufferSizeCountMismatch
  | some _, none => some ComputeError.MissingBufferSizes
  | none, _ => none

/-- Holds when a construction that returned a typed error created no
device resource. -/
def createdEmptyOnErr (r : Outcome Compute × List DeviceRes) : Prop :=
  match r.1 with
  | Outcome.err _ => r.2 = []
  | _ => True

/-- Whether a command is a buffer-to-buffer copy (the only command that
writes a buffer from the host side; in particular every zero-fill of the
sort tables would be such a copy). -/
def isCopyCmd : Cmd → Bool
  | Cmd.copyBufferToBuffer _ _ _ _ _ => true
  | _ => false

/-- The 1-D dispatches of a command list, each paired with the shader of
the pipeline set in its pass, in encoding order. -/
def dispatches : List Cmd → Option ShaderId → List (ShaderId × Nat)
  | [], _ => []
  | Cmd.setPipeline s :: rest, _ => dispatches rest (some s)
  | Cmd.dispatch x _ _ :: rest, some s => (s, x) :: dispatches rest (some s)
  | Cmd.dispatch _ _ _ :: rest, none => dispatches rest none
  | _ :: rest, cur => dispatches rest cur

/-- Specification-side grid scaling for one axis: the base value doubled
exactly `e` times when `e > 0` (exact multiplication by `2^e`, no
wrapping), integer-halved exactly `|e|` times when `e < 0`, and unchanged
when `e = 0`. -/
def specScaleExp (g : Nat) (e : Int) : Nat :=
  if 0 < e then g * 2 ^ e.toNat
  else (fun x => x / 2)^[(-e).toNat] g

/-- Concrete particle system used to exercise the copy operation. -/
def psW : ParticleSystem :=
  { position_buffer_in := BufName.positionIn,
    position_buffer_out := BufName.positionOut,
    velocity_buffer := BufName.velocity,
    buffer_size := 8,
    initial_positions := [{ x := 1, y := 2 }],
    compute :=
      { storageBindings := [BufName.positionIn, BufName.positionOut, BufName.velocity],
        uniformBinding := some BufName.uniformBuf,
        shader := ShaderId.updateShader } }

/-- Concrete device state used to exercise the copy operation. -/
def stW : GpuState := fun b =>
  match b with
  | BufName.positionOut => [9, 9, 9, 9, 8, 8, 8, 8]
  | _ => [0, 0, 0, 0, 0, 0, 0, 0]

/-- Whether a buffer is one of the two sort tables owned by `RadixSort`. -/
def isSortTable (b : BufName) : Bool :=
  b == BufName.prefixSum || b == BufName.binCount

/-- Concrete radix-sort value used to exercise the update sequence. -/
def rsW : RadixSort :=
  { count := { storageBindings := count_buffers,
               uniformBinding := some BufName.uniformBuf,
               shader := ShaderId.countShader },
    scan := { storageBindings := scan_buffers,
              uniformBinding := some BufName.uniformBuf,
              shader := ShaderId.scanShader },
    reorder := { storageBindings := reorder_buffers,
                 uniformBinding := some BufName.uniformBuf,
                 shader := ShaderId.reorderShader },
    buffer_size := 32,
    bin_count_buffer := BufName.binCount,
    prefix_sum_buffer := BufName.prefixSum,
    num_bins := 8,
    particle_count := 5000 }

/-- Concrete sampling oracle used to exercise the particle constructor. -/
def sW : Nat → Vec2 × Vec2 := fun _ => ({ x := 1, y := 2 }, { x := 3, y := 4 })

/-- Concrete particle system produced by `ParticleSystem.new 1 sW`. -/
def pW : ParticleSystem :=
  { position_buffer_in := BufName.positionIn,
    position_buffer_out := BufName.positionOut,
    velocity_buffer := BufName.velocity,
    buffer_size := 8,
    initial_positions := [{ x := 1, y := 2 }],
    compute := { storageBindings := [BufName.positionIn, BufName.positionOut, BufName.velocity],
                 uniformBinding := some BufName.uniformBuf,
                 shader := ShaderId.updateShader } }

/-- Concrete initial buffer contents produced by `ParticleSystem.new 1 sW`. -/
def iW : ParticleInit :=
  { position_in_contents := [1, 0, 0, 0, 2, 0, 0, 0],
    position_out_contents := [1, 0, 0, 0, 2, 0, 0, 0],
    velocity_contents := [3, 0, 0, 0, 4, 0, 0, 0] }

theorem doubleLoop_pow (k : Nat) : ∀ g : Nat, g * 2 ^ k < u64Mod → doubleLoop g k = g * 2 ^ k := by
  induction k with
  | zero => intro g _; simp [doubleLoop]
  | succ k ih =>
    intro g h
    have h2 : g * 2 ≤ g * 2 ^ (k + 1) := by
      have hb : (2 : Nat) ≤ 2 ^ (k + 1) := by
        calc (2 : Nat) = 2 ^ 1 := by norm_num
          _ ≤ 2 ^ (k + 1) := Nat.pow_le_pow_right (by omega) (by omega)
      exact Nat.mul_le_mul_left g hb
    have hlt : g * 2 < u64Mod := lt_of_le_of_lt h2 h
    have harr : g * 2 * 2 ^ k = g * 2 ^ (k + 1) := by ring
    calc doubleLoop g (k + 1) = doubleLoop (g * 2 % u64Mod) k := rfl
      _ = doubleLoop (g * 2) k := by rw [Nat.mod_eq_of_lt hlt]
      _ = g * 2 * 2 ^ k := ih (g * 2) (by rw [harr]; exact h)
      _ = g * 2 ^ (k + 1) := harr

theorem halveLoop_pow2 (k : Nat) : ∀ a : Nat, k ≤ a → halveLoop (2 ^ a) k = 2 ^ (a - k) := by
  induction k with
  | zero => intro a _; simp [halveLoop]
  | succ k ih =>
    intro a hka
    have ha : 1 ≤ a := by omega
    have hdiv : 2 ^ a / 2 = 2 ^ (a - 1) := by
      have : 2 ^ a = 2 ^ (a - 1) * 2 := by
        rw [← Nat.pow_succ]; congr 1; omega
      omega
    calc halveLoop (2 ^ a) (k + 1) = halveLoop (2 ^ a / 2) k := rfl
      _ = halveLoop (2 ^ (a - 1)) k := by rw [hdiv]
      _ = 2 ^ (a - 1 - k) := ih (a - 1) (by omega)
      _ = 2 ^ (a - (k + 1)) := by congr 1; omega

theorem halveLoop_iterate (k : Nat) : ∀ g : Nat, halveLoop g k = (fun x => x / 2)^[k] g := by
  induction k with
  | zero => intro g; simp [halveLoop]
  | succ k ih =>
    intro g
    calc halveLoop g (k + 1) = halveLoop (g / 2) k := rfl
      _ = (fun x => x / 2)^[k] (g / 2) := ih (g / 2)
      _ = (fun x => x / 2)^[k + 1] g := (Function.iterate_succ_apply (fun x => x / 2) k g).symm

theorem pow_log2fuel_le (fuel : Nat) : ∀ n : Nat, 1 ≤ n → 2 ^ log2fuel fuel n ≤ n := by
  induction fuel with
  | zero => intro n hn; simpa [log2fuel] using hn
  | succ fuel ih =>
    intro n hn
    by_cases h2 : 2 ≤ n
    · have hhalf : 1 ≤ n / 2 := by omega
      have := ih (n / 2) hhalf
      have hred : log2fuel (fuel + 1) n = log2fuel fuel (n / 2) + 1 := by
        simp [log2fuel, h2]
      rw [hred, Nat.pow_succ]
      have : 2 ^ log2fuel fuel (n / 2) * 2 ≤ n / 2 * 2 := Nat.mul_le_mul_right 2 this
      omega
    · have hred : log2fuel (fuel + 1) n = 0 := by simp [log2fuel, h2]
      simpa [hred] using hn

theorem np2exp_le_63 (n : Nat) (hn : n ≤ 2 ^ 63) : np2exp n ≤ 63 := by
  by_cases h1 : n ≤ 1
  · simp [np2exp, h1]
  · have h2 : 1 ≤ n - 1 := by omega
    have hle : 2 ^ log2fuel 64 (n - 1) ≤ n - 1 := pow_log2fuel_le 64 (n - 1) h2
    have hlt : 2 ^ log2fuel 64 (n - 1) < 2 ^ 63 := by omega
    have : log2fuel 64 (n - 1) < 63 := (Nat.pow_lt_pow_iff_right (by omega)).mp hlt
    simp only [np2exp, h1, if_false]
    omega

theorem nextPow2_eq_pow (n : Nat) (hn : n ≤ 2 ^ 63) : nextPow2 n = 2 ^ np2exp n := by
  have h63 := np2exp_le_63 n hn
  have : (2 : Nat) ^ np2exp n < u64Mod := by
    have : (2 : Nat) ^ np2exp n ≤ 2 ^ 63 := Nat.pow_le_pow_right (by omega) h63
    have hu : (2 : Nat) ^ 63 < 2 ^ 64 := by norm_num
    simp only [u64Mod]
    omega
  simp [nextPow2, Nat.mod_eq_of_lt this]

theorem nextPow2_lt_u64 (n : Nat) : nextPow2 n < u64Mod := by
  have : 0 < u64Mod := by simp [u64Mod]
  exact Nat.mod_lt _ this

theorem axis_scale (g : Nat) (e : Int) (hpos : 0 < e → g * 2 ^ e.toNat < u64Mod) :
    (if e < 0 then halveLoop (if 0 < e then doubleLoop g e.toNat else g) (-e).toNat
     else if 0 < e then doubleLoop g e.toNat else g) = specScaleExp g e := by
  rcases lt_trichotomy e 0 with hneg | hzero | hpos2
  · have hnp : ¬ 0 < e := by omega
    rw [if_pos hneg, if_neg hnp, specScaleExp, if_neg hnp]
    exact halveLoop_iterate (-e).toNat g
  · subst hzero
    simp [specScaleExp]
  · have hn : ¬ e < 0 := by omega
    rw [if_neg hn, if_pos hpos2, specScaleExp, if_pos hpos2]
    exact doubleLoop_pow e.toNat g (hpos hpos2)

theorem axis_pow2 (n : Nat) (e : Int) (hn : n ≤ 2 ^ 63)
    (h2 : e < 0 → (-e).toNat ≤ np2exp n) :
    ∃ k, specScaleExp (nextPow2 n) e = 2 ^ k := by
  rcases lt_trichotomy e 0 with hneg | hzero | hpos
  · refine ⟨np2exp n - (-e).toNat, ?_⟩
    have hnp : ¬ 0 < e := by omega
    rw [specScaleExp, if_neg hnp, ← halveLoop_iterate, nextPow2_eq_pow n hn]
    exact halveLoop_pow2 (-e).toNat (np2exp n) (h2 hneg)
  · subst hzero
    exact ⟨np2exp n, by simp [specScaleExp, nextPow2_eq_pow n hn]⟩
  · exact ⟨np2exp n + e.toNat,
      by rw [specScaleExp, if_pos hpos, nextPow2_eq_pow n hn, ← pow_add]⟩

theorem binConfig_grid_x_def (w h : Nat) (ex ey : Int) :
    (BinConfig.new w h ex ey).grid_x =
      (if ex < 0 then
        halveLoop (if 0 < ex then doubleLoop (nextPow2 w) ex.toNat else nextPow2 w) (-ex).toNat
      else if 0 < ex then doubleLoop (nextPow2 w) ex.toNat else nextPow2 w) := rfl

theorem binConfig_grid_y_def (w h : Nat) (ex ey : Int) :
    (BinConfig.new w h ex ey).grid_y =
      (if ey < 0 then
        halveLoop (if 0 < ey then doubleLoop (nextPow2 h) ey.toNat else nextPow2 h) (-ey).toNat
      else if 0 < ey then doubleLoop (nextPow2 h) ey.toNat else nextPow2 h) := rfl

theorem binConfig_num_bins_def (w h : Nat) (ex ey : Int) :
    (BinConfig.new w h ex ey).num_bins =
      (BinConfig.new w h ex ey).grid_x * (BinConfig.new w h ex ey).grid_y % u64Mod := rfl

theorem binConfig_bin_x_def (w h : Nat) (ex ey : Int) :
    (BinConfig.new w h ex ey).bin_x =
      f64DivByPow2 w ((BinConfig.new w h ex ey).grid_x) := rfl

theorem binConfig_bin_y_def (w h : Nat) (ex ey : Int) :
    (BinConfig.new w h ex ey).bin_y =
      f64DivByPow2 h ((BinConfig.new w h ex ey).grid_y) := rfl

theorem log2fuel_pow2 : ∀ fuel k : Nat, k < fuel → log2fuel fuel (2 ^ k) = k := by
  intro fuel
  induction fuel with
  | zero => intro k hk; omega
  | succ f ih =>
    intro k hk
    cases k with
    | zero => simp [log2fuel]
    | succ k =>
      have h2 : 2 ≤ 2 ^ (k + 1) := by
        calc (2 : Nat) = 2 ^ 1 := by norm_num
          _ ≤ 2 ^ (k + 1) := Nat.pow_le_pow_right (by omega) (by omega)
      have hdiv : 2 ^ (k + 1) / 2 = 2 ^ k := by
        rw [Nat.pow_succ]
        exact Nat.mul_div_cancel _ (by omega)
      simp only [log2fuel, h2, if_pos, hdiv]
      rw [ih k (by omega)]

theorem rnd53_small (n : Nat) (h : n < 2 ^ 53) : rnd53 n = n := by
  unfold rnd53
  rw [if_pos h]

theorem rnd53_pow2 (k : Nat) (hk : k ≤ 63) : rnd53 (2 ^ k) = 2 ^ k := by
  by_cases h : (2 : Nat) ^ k < 2 ^ 53
  · exact rnd53_small _ h
  · have hk53 : 53 ≤ k := by
      by_contra hcon
      exact h (Nat.pow_lt_pow_right (by omega) (by omega))
    have hlog : log2fuel 64 (2 ^ k) = k := log2fuel_pow2 64 k (by omega)
    have hr : 2 ^ k % 2 ^ (k - 52) = 0 :=
      Nat.dvd_iff_mod_eq_zero.mp (pow_dvd_pow 2 (by omega))
    have hq : 2 ^ k / 2 ^ (k - 52) = 2 ^ 52 := by
      rw [Nat.pow_div (by omega) (by omega)]
      congr 1
      omega
    have hpos : 0 < 2 ^ (k - 52) := Nat.pos_pow_of_pos _ (by omega)
    simp only [rnd53, h, if_false, hlog, hr, hq]
    rw [if_pos (by omega), ← Nat.pow_add]
    congr 1
    omega

theorem pow2OrZero_mul2 (g : Nat) (hg : pow2OrZero g) : pow2OrZero (g * 2 % u64Mod) := by
  rcases hg with rfl | ⟨k, hk, rfl⟩
  · left; simp
  · by_cases hk63 : k + 1 ≤ 63
    · right
      refine ⟨k + 1, hk63, ?_⟩
      rw [← Nat.pow_succ]
      exact Nat.mod_eq_of_lt ((Nat.pow_lt_pow_iff_right (by omega)).mpr (by omega))
    · left
      have h2 : (2 : Nat) ^ k * 2 = 2 ^ 64 := by
        rw [← Nat.pow_succ]
        congr 1
        omega
      rw [h2]
      simp [u64Mod]

theorem pow2OrZero_doubleLoop (m : Nat) :
    ∀ g : Nat, pow2OrZero g → pow2OrZero (doubleLoop g m) := by
  induction m with
  | zero => intro g hg; exact hg
  | succ m ih => intro g hg; exact ih _ (pow2OrZero_mul2 g hg)

theorem pow2OrZero_div2 (g : Nat) (hg : pow2OrZero g) : pow2OrZero (g / 2) := by
  rcases hg with rfl | ⟨k, hk, rfl⟩
  · left; simp
  · cases k with
    | zero => left; simp
    | succ k =>
      right
      refine ⟨k, by omega, ?_⟩
      rw [Nat.pow_succ]
      exact Nat.mul_div_cancel _ (by omega)

theorem pow2OrZero_halveLoop (m : Nat) :
    ∀ g : Nat, pow2OrZero g → pow2OrZero (halveLoop g m) := by
  induction m with
  | zero => intro g hg; exact hg
  | succ m ih => intro g hg; exact ih _ (pow2OrZero_div2 g hg)

theorem pow2OrZero_nextPow2 (n : Nat) : pow2OrZero (nextPow2 n) := by
  by_cases h : np2exp n ≤ 63
  · right
    refine ⟨np2exp n, h, ?_⟩
    exact Nat.mod_eq_of_lt ((Nat.pow_lt_pow_iff_right (by omega)).mpr (by omega))
  · left
    have hdvd : u64Mod ∣ 2 ^ np2exp n := by
      rw [u64Mod]
      exact pow_dvd_pow 2 (by omega)
    exact Nat.dvd_iff_mod_eq_zero.mp hdvd

theorem binConfig_grid_pow2_or_zero (w h : Nat) (ex ey : Int) :
    pow2OrZero ((BinConfig.new w h ex ey).grid_x)
    ∧ pow2OrZero ((BinConfig.new w h ex ey).grid_y) := by
  constructor
  · rw [binConfig_grid_x_def]
    have h1 : pow2OrZero (if 0 < ex then doubleLoop (nextPow2 w) ex.toNat else nextPow2 w) := by
      by_cases hp : 0 < ex
      · simp only [hp, if_pos]
        exact pow2OrZero_doubleLoop _ _ (pow2OrZero_nextPow2 w)
      · simp only [hp, if_false]
        exact pow2OrZero_nextPow2 w
    by_cases hneg : ex < 0
    · simp only [hneg, if_pos]
      exact pow2OrZero_halveLoop _ _ h1
    · simp only [hneg, if_false]
      exact h1
  · rw [binConfig_grid_y_def]
    have h1 : pow2OrZero (if 0 < ey then doubleLoop (nextPow2 h) ey.toNat else nextPow2 h) := by
      by_cases hp : 0 < ey
      · simp only [hp, if_pos]
        exact pow2OrZero_doubleLoop _ _ (pow2OrZero_nextPow2 h)
      · simp only [hp, if_false]
        exact pow2OrZero_nextPow2 h
    by_cases hneg : ey < 0
    · simp only [hneg, if_pos]
      exact pow2OrZero_halveLoop _ _ h1
    · simp only [hneg, if_false]
      exact h1

theorem scanStage_length (c : List Nat) : (scanStage c).length = c.length := by
  simp [scanStage]

theorem scanStage_getD (c : List Nat) (i : Nat) (h : i < c.length) :
    (scanStage c).getD i 0 = (c.take i).sum := by
  simp [scanStage, List.getD_eq_getElem?_getD, List.getElem?_map, List.getElem?_range, h]

theorem sum_take_succ_getD (c : List Nat) (i : Nat) (h : i < c.length) :
    (c.take (i + 1)).sum = (c.take i).sum + c.getD i 0 := by
  rw [List.sum_take_succ c i h, List.getD_eq_getElem?_getD, List.getElem?_eq_getElem h]
  simp

theorem radix_sort_new_ok (pbs : Nat) (u : Uniforms) (rs : RadixSort)
    (hok : RadixSort.new pbs u = Outcome.ok rs) :
    rs = { count := { storageBindings := count_buffers,
                      uniformBinding := some BufName.uniformBuf,
                      shader := ShaderId.countShader },
           scan := { storageBindings := scan_buffers,
                     uniformBinding := some BufName.uniformBuf,
                     shader := ShaderId.scanShader },
           reorder := { storageBindings := reorder_buffers,
                        uniformBinding := some BufName.uniformBuf,
                        shader := ShaderId.reorderShader },
           buffer_size := u.num_bins * 4,
           bin_count_buffer := BufName.binCount,
           prefix_sum_buffer := BufName.prefixSum,
           num_bins := u.num_bins,
           particle_count := u.particle_count } := by
  unfold RadixSort.new at hok
  simp only [Compute.new, count_buffers, scan_buffers, reorder_buffers] at hok
  by_cases h1 : pbs = 0
  · simp [h1] at hok
  · by_cases h2 : u.num_bins = 0
    · simp [h1, h2] at hok
    · simp [h1, h2, eq_comm] at hok
      exact hok

/-- C1: the claim states that every `RadixSort::update` call zero-fills the
bin-count table before the Count dispatch.  The code does the opposite: the
`clear_buffers` call in `update` is commented out (src/radix_sort.rs line
176), so the encoded frame contains no buffer-to-buffer copy at all - in
particular no zero-fill of either sort table precedes the Count dispatch -
even though the `clear_buffers` helper that would encode exactly those two
zero-fills exists in the same impl block.  This theorem records both facts:
the update stream is copy-free, and the dead helper would have cleared both
tables. -/
theorem radix_sort_update_issues_no_clear (rs : RadixSort) :
    List.filter isCopyCmd rs.update = []
    ∧ rs.clear_buffers =
        [Cmd.copyBufferToBuffer BufName.zerosStaging 0 rs.bin_count_buffer 0 rs.buffer_size,
          Cmd.copyBufferToBuffer BufName.zerosStaging 0 rs.prefix_sum_buffer 0 rs.buffer_size] := by
  constructor
  · simp [RadixSort.update, Compute.compute, isCopyCmd]
  · simp [RadixSort.clear_buffers, RadixSort.clear_buffer]

/-- C2: the claim states that `particleCount = 0` must not crash.  The code
crashes: with zero particles `buffer_size = 0`, and `Compute::new` executes
`NonZeroU64::new(0).unwrap()` (src/compute.rs line 49), a panic, so
`ParticleSystem::new` (which `.unwrap()`s that result) aborts for every
sampling oracle. -/
theorem particle_system_new_zero_count_aborts :
    (∀ sample : Nat → Vec2 × Vec2, ParticleSystem.new 0 sample = Outcome.aborted)
    ∧ (Compute.new (some [BufName.positionIn, BufName.positionOut, BufName.velocity])
        (some [0, 0, 0]) (some BufName.uniformBuf) ShaderId.updateShader).1 = Outcome.aborted :=
  ⟨fun _ => rfl, rfl⟩

/-- C3: every `RadixSort::update` call encodes exactly three compute
passes - Count, then Scan, then Reorder, in that fixed order with nothing
else in the stream - dispatching `particle_count` work groups for Count,
`num_bins` for Scan and `particle_count` for Reorder. -/
theorem radix_sort_update_stage_order (pbs : Nat) (u : Uniforms) (rs : RadixSort)
    (hok : RadixSort.new pbs u = Outcome.ok rs) :
    rs.update =
      [Cmd.beginComputePass, Cmd.setPipeline ShaderId.countShader,
        Cmd.setBindGroup count_buffers (some BufName.uniformBuf),
        Cmd.dispatch u.particle_count 1 1,
        Cmd.beginComputePass, Cmd.setPipeline ShaderId.scanShader,
        Cmd.setBindGroup scan_buffers (some BufName.uniformBuf),
        Cmd.dispatch u.num_bins 1 1,
        Cmd.beginComputePass, Cmd.setPipeline ShaderId.reorderShader,
        Cmd.setBindGroup reorder_buffers (some BufName.uniformBuf),
        Cmd.dispatch u.particle_count 1 1]
    ∧ dispatches rs.update none =
      [(ShaderId.countShader, u.particle_count), (ShaderId.scanShader, u.num_bins),
        (ShaderId.reorderShader, u.particle_count)] := by
  obtain rfl := radix_sort_new_ok pbs u rs hok
  exact ⟨rfl, rfl⟩

/-- Witness for C3 at the repository's own configuration (5000 particles,
an 8-bin grid). -/
theorem radix_sort_update_stage_order_witness :
    RadixSort.new 40000 { particle_count := 5000, num_bins := 8 } = Outcome.ok rsW
    ∧ (rsW.update =
        [Cmd.beginComputePass, Cmd.setPipeline ShaderId.countShader,
          Cmd.setBindGroup count_buffers (some BufName.uniformBuf),
          Cmd.dispatch 5000 1 1,
          Cmd.beginComputePass, Cmd.setPipeline ShaderId.scanShader,
          Cmd.setBindGroup scan_buffers (some BufName.uniformBuf),
          Cmd.dispatch 8 1 1,
          Cmd.beginComputePass, Cmd.setPipeline ShaderId.reorderShader,
          Cmd.setBindGroup reorder_buffers (some BufName.uniformBuf),
          Cmd.dispatch 5000 1 1]
      ∧ dispatches rsW.update none =
        [(ShaderId.countShader, 5000), (ShaderId.scanShader, 8),
          (ShaderId.reorderShader, 5000)]) :=
  ⟨by decide,
    radix_sort_update_stage_order 40000 { particle_count := 5000, num_bins := 8 } rsW (by decide)⟩

/-- C4 counterexample: the claim quantifies over every width and exponent,
but at width `2^63` with exponent `1` the `u64` doubling overflows:
`grid_x` comes out `0` (wrapping; a debug build would panic instead), not
the claimed `next_power_of_two(2^63)` doubled once, which is `2^64`. -/
theorem bin_config_doubling_overflow_cex :
    (BinConfig.new (2 ^ 63) 1 1 0).grid_x = 0
    ∧ ((BinConfig.new (2 ^ 63) 1 1 0).grid_x == specScaleExp (nextPow2 (2 ^ 63)) 1) = false := by
  decide

/-- C4 (amended): for inputs where the doubling loop and the grid product
stay below `2^64`, `BinConfig::new` returns `grid_x` equal to
`next_power_of_two(width)` doubled exactly `ex` times when `ex > 0`,
integer-halved exactly `|ex|` times when `ex < 0` and unchanged at zero
(likewise `grid_y`), and `num_bins = grid_x * grid_y`.  The bin sizes are
`f64` quotients; when additionally the raw dimension is below `2^53` (so
it converts to `f64` exactly) and the grid dimension is nonzero, they are
the exact quotients `width / grid_x` and `height / grid_y` with no
rounding - a larger dimension would round during the `f64` conversion,
and a zero grid gives a non-finite value. -/
theorem bin_config_new_scaling (w h : Nat) (ex ey : Int)
    (hx : nextPow2 w * 2 ^ ex.toNat < u64Mod)
    (hy : nextPow2 h * 2 ^ ey.toNat < u64Mod)
    (hp : specScaleExp (nextPow2 w) ex * specScaleExp (nextPow2 h) ey < u64Mod)
    (hw53 : w < 2 ^ 53) (hh53 : h < 2 ^ 53)
    (hgx0 : 0 < specScaleExp (nextPow2 w) ex)
    (hgy0 : 0 < specScaleExp (nextPow2 h) ey) :
    (BinConfig.new w h ex ey).grid_x = specScaleExp (nextPow2 w) ex
    ∧ (BinConfig.new w h ex ey).grid_y = specScaleExp (nextPow2 h) ey
    ∧ (BinConfig.new w h ex ey).bin_x
        = F64.finite ((w : ℚ) / (((BinConfig.new w h ex ey).grid_x : Nat) : ℚ))
    ∧ (BinConfig.new w h ex ey).bin_y
        = F64.finite ((h : ℚ) / (((BinConfig.new w h ex ey).grid_y : Nat) : ℚ))
    ∧ (BinConfig.new w h ex ey).num_bins
        = (BinConfig.new w h ex ey).grid_x * (BinConfig.new w h ex ey).grid_y := by
  have hgx : (BinConfig.new w h ex ey).grid_x = specScaleExp (nextPow2 w) ex := by
    rw [binConfig_grid_x_def]
    exact axis_scale (nextPow2 w) ex (fun _ => hx)
  have hgy : (BinConfig.new w h ex ey).grid_y = specScaleExp (nextPow2 h) ey := by
    rw [binConfig_grid_y_def]
    exact axis_scale (nextPow2 h) ey (fun _ => hy)
  have hbinx : (BinConfig.new w h ex ey).bin_x
      = F64.finite ((w : ℚ) / (((BinConfig.new w h ex ey).grid_x : Nat) : ℚ)) := by
    have hne : (BinConfig.new w h ex ey).grid_x ≠ 0 := by
      rw [hgx]
      omega
    rcases (binConfig_grid_pow2_or_zero w h ex ey).1 with hz | ⟨k, hk, hpow⟩
    · exact absurd hz hne
    · rw [binConfig_bin_x_def, f64DivByPow2, if_neg hne, rnd53_small w hw53, hpow,
        rnd53_pow2 k hk]
  have hbiny : (BinConfig.new w h ex ey).bin_y
      = F64.finite ((h : ℚ) / (((BinConfig.new w h ex ey).grid_y : Nat) : ℚ)) := by
    have hne : (BinConfig.new w h ex ey).grid_y ≠ 0 := by
      rw [hgy]
      omega
    rcases (binConfig_grid_pow2_or_zero w h ex ey).2 with hz | ⟨k, hk, hpow⟩
    · exact absurd hz hne
    · rw [binConfig_bin_y_def, f64DivByPow2, if_neg hne, rnd53_small h hh53, hpow,
        rnd53_pow2 k hk]
  refine ⟨hgx, hgy, hbinx, hbiny, ?_⟩
  rw [binConfig_num_bins_def, hgx, hgy]
  exact Nat.mod_eq_of_lt hp

/-- Witness for C4 at the claim's own scenario: viewport 1920 by 1080 with
exponents (-9, -10) gives `grid_x = 4`, `grid_y = 2`, `num_bins = 8`. -/
theorem bin_config_new_scaling_witness :
    (nextPow2 1920 * 2 ^ ((-9 : Int)).toNat < u64Mod
      ∧ nextPow2 1080 * 2 ^ ((-10 : Int)).toNat < u64Mod
      ∧ specScaleExp (nextPow2 1920) (-9) * specScaleExp (nextPow2 1080) (-10) < u64Mod
      ∧ (1920 : Nat) < 2 ^ 53 ∧ (1080 : Nat) < 2 ^ 53
      ∧ 0 < specScaleExp (nextPow2 1920) (-9)
      ∧ 0 < specScaleExp (nextPow2 1080) (-10))
    ∧ ((BinConfig.new 1920 1080 (-9) (-10)).grid_x = specScaleExp (nextPow2 1920) (-9)
      ∧ (BinConfig.new 1920 1080 (-9) (-10)).grid_y = specScaleExp (nextPow2 1080) (-10)
      ∧ (BinConfig.new 1920 1080 (-9) (-10)).bin_x
          = F64.finite ((1920 : ℚ) / (((BinConfig.new 1920 1080 (-9) (-10)).grid_x : Nat) : ℚ))
      ∧ (BinConfig.new 1920 1080 (-9) (-10)).bin_y
          = F64.finite ((1080 : ℚ) / (((BinConfig.new 1920 1080 (-9) (-10)).grid_y : Nat) : ℚ))
      ∧ (BinConfig.new 1920 1080 (-9) (-10)).num_bins
          = (BinConfig.new 1920 1080 (-9) (-10)).grid_x
              * (BinConfig.new 1920 1080 (-9) (-10)).grid_y)
    ∧ ((BinConfig.new 1920 1080 (-9) (-10)).grid_x = 4
      ∧ (BinConfig.new 1920 1080 (-9) (-10)).grid_y = 2
      ∧ (BinConfig.new 1920 1080 (-9) (-10)).num_bins = 8) :=
  ⟨⟨by decide, by decide, by decide, by decide, by decide, by decide, by decide⟩,
    bin_config_new_scaling 1920 1080 (-9) (-10) (by decide) (by decide) (by decide)
      (by decide) (by decide) (by decide) (by decide),
    by decide⟩

/-- C5 counterexample: the claim asserts the grid dimensions are always
powers of two and `num_bins ≥ 1`, but halving a 1 by 1 viewport's grid
once drives `grid_y` to `0`, making `num_bins = 0`. -/
theorem bin_config_num_bins_zero_cex :
    (BinConfig.new 1 1 0 (-1)).grid_y = 0
    ∧ (BinConfig.new 1 1 0 (-1)).num_bins < 1 := by
  decide

/-- C5 (amended): the grid dimensions are powers of two and `num_bins ≥ 1`
provided each negative scale exponent's magnitude is at most the base-2
logarithm of the corresponding next-power-of-two dimension (so halving
never exhausts the grid) and neither the doubling loops nor the grid
product overflow `u64`. -/
theorem bin_config_new_pow2_invariant (w h : Nat) (ex ey : Int)
    (hw : w ≤ 2 ^ 63) (hh : h ≤ 2 ^ 63)
    (hx1 : 0 < ex → nextPow2 w * 2 ^ ex.toNat < u64Mod)
    (hx2 : ex < 0 → (-ex).toNat ≤ np2exp w)
    (hy1 : 0 < ey → nextPow2 h * 2 ^ ey.toNat < u64Mod)
    (hy2 : ey < 0 → (-ey).toNat ≤ np2exp h)
    (hp : specScaleExp (nextPow2 w) ex * specScaleExp (nextPow2 h) ey < u64Mod) :
    (∃ kx, (BinConfig.new w h ex ey).grid_x = 2 ^ kx)
    ∧ (∃ ky, (BinConfig.new w h ex ey).grid_y = 2 ^ ky)
    ∧ 1 ≤ (BinConfig.new w h ex ey).num_bins := by
  have hgx : (BinConfig.new w h ex ey).grid_x = specScaleExp (nextPow2 w) ex := by
    rw [binConfig_grid_x_def]
    exact axis_scale (nextPow2 w) ex hx1
  have hgy : (BinConfig.new w h ex ey).grid_y = specScaleExp (nextPow2 h) ey := by
    rw [binConfig_grid_y_def]
    exact axis_scale (nextPow2 h) ey hy1
  obtain ⟨kx, hkx⟩ := axis_pow2 w ex hw hx2
  obtain ⟨ky, hky⟩ := axis_pow2 h ey hh hy2
  refine ⟨⟨kx, by rw [hgx, hkx]⟩, ⟨ky, by rw [hgy, hky]⟩, ?_⟩
  rw [binConfig_num_bins_def, hgx, hgy, Nat.mod_eq_of_lt hp, hkx, hky]
  exact Nat.mul_pos (pow_pos (by omega) kx) (pow_pos (by omega) ky)

/-- Witness for C5 at a viewport of 800 by 600 with exponents (1, -2). -/
theorem bin_config_new_pow2_invariant_witness :
    ((800 : Nat) ≤ 2 ^ 63 ∧ (600 : Nat) ≤ 2 ^ 63
      ∧ (0 < (1 : Int) → nextPow2 800 * 2 ^ ((1 : Int)).toNat < u64Mod)
      ∧ ((1 : Int) < 0 → ((-(1 : Int))).toNat ≤ np2exp 800)
      ∧ (0 < (-2 : Int) → nextPow2 600 * 2 ^ ((-2 : Int)).toNat < u64Mod)
      ∧ ((-2 : Int) < 0 → ((-(-2 : Int))).toNat ≤ np2exp 600)
      ∧ specScaleExp (nextPow2 800) 1 * specScaleExp (nextPow2 600) (-2) < u64Mod)
    ∧ ((∃ kx, (BinConfig.new 800 600 1 (-2)).grid_x = 2 ^ kx)
      ∧ (∃ ky, (BinConfig.new 800 600 1 (-2)).grid_y = 2 ^ ky)
      ∧ 1 ≤ (BinConfig.new 800 600 1 (-2)).num_bins) :=
  ⟨⟨by decide, by decide, by decide, by decide, by decide, by decide, by decide⟩,
    bin_config_new_pow2_invariant 800 600 1 (-2) (by decide) (by decide) (by decide)
      (by decide) (by decide) (by decide) (by decide)⟩

/-- C6: `Compute::new` returns the buffer-count-mismatch error exactly when
both lists are provided with differing lengths, `MissingBufferSizes`
exactly when buffers are provided without sizes, and on every error path
it returns before any device resource (bind group layout, bind group,
pipeline layout, pipeline) is created. -/
theorem compute_new_error_classification (buffers : Option (List BufName))
    (buffer_sizes : Option (List Nat)) (uniform_buffer : Option BufName) (cs_mod : ShaderId) :
    errOf (Compute.new buffers buffer_sizes uniform_buffer cs_mod).1
        = expectedErr buffers buffer_sizes
    ∧ createdEmptyOnErr (Compute.new buffers buffer_sizes uniform_buffer cs_mod) := by
  cases buffers with
  | none =>
    cases buffer_sizes <;> simp [Compute.new, expectedErr, errOf, createdEmptyOnErr]
  | some b =>
    cases buffer_sizes with
    | none => simp [Compute.new, expectedErr, errOf, createdEmptyOnErr]
    | some s =>
      by_cases hlen : b.length = s.length
      · by_cases hz : (0 : Nat) ∈ s
        · simp [Compute.new, expectedErr, errOf, createdEmptyOnErr, hlen, hz]
        · simp [Compute.new, expectedErr, errOf, createdEmptyOnErr, hlen, hz]
      · simp [Compute.new, expectedErr, errOf, createdEmptyOnErr, hlen]

/-- C7 counterexample: the claim says Count accumulates into the bin-count
buffer and that, of the two sort tables, Reorder consumes only the
prefix-sum buffer.  The binding lists of `RadixSort::new` contradict both
halves: the count kernel does not bind `bin_count_buffer` at all, and the
reorder kernel does bind it. -/
theorem radix_sort_table_roles_cex :
    (count_buffers.contains BufName.binCount) = false
    ∧ (reorder_buffers.contains BufName.binCount) = true := by
  decide

/-- C7 (amended): the table roles are swapped relative to the buffer
names.  The only sort table bound to the Count kernel is
`prefix_sum_buffer` (so that is where the per-bin counts accumulate), the
Scan kernel rescans `prefix_sum_buffer` in place, and the Reorder kernel
consumes both tables: `prefix_sum_buffer` plus `bin_count_buffer`, the
latter bound as the auxiliary per-bin write-cursor table. -/
theorem radix_sort_table_roles :
    count_buffers.filter isSortTable = [BufName.prefixSum]
    ∧ scan_buffers.filter isSortTable = [BufName.prefixSum]
    ∧ reorder_buffers.filter isSortTable = [BufName.prefixSum, BufName.binCount] := by
  decide

/-- C8: `copy_positions_from_out_to_in` encodes a copy of the entire out
position buffer (all `buffer_size` bytes from offset 0) over the in
position buffer, after which the in buffer holds byte-for-byte the
contents last written to the out buffer. -/
theorem copy_positions_out_to_in_exact (ps : ParticleSystem) (st : GpuState)
    (hout : (st ps.position_buffer_out).length = ps.buffer_size)
    (hin : (st ps.position_buffer_in).length = ps.buffer_size) :
    ps.copy_positions_from_out_to_in =
        Cmd.copyBufferToBuffer ps.position_buffer_out 0 ps.position_buffer_in 0 ps.buffer_size
    ∧ applyCmd st ps.copy_positions_from_out_to_in ps.position_buffer_in
        = st ps.position_buffer_out := by
  constructor
  · rfl
  · show (if ps.position_buffer_in = ps.position_buffer_in then
        copyBytes (st ps.position_buffer_out) 0 (st ps.position_buffer_in) 0 ps.buffer_size
      else st ps.position_buffer_in) = st ps.position_buffer_out
    rw [if_pos rfl]
    have h1 : (st ps.position_buffer_out).take ps.buffer_size = st ps.position_buffer_out := by
      rw [← hout]
      exact List.take_length (st ps.position_buffer_out)
    have h2 : (st ps.position_buffer_in).drop ps.buffer_size = [] := by
      rw [← hin]
      exact List.drop_length (st ps.position_buffer_in)
    simp [copyBytes, h1, h2]

/-- Witness for C8 on a concrete 8-byte device state. -/
theorem copy_positions_out_to_in_exact_witness :
    ((stW psW.position_buffer_out).length = psW.buffer_size
      ∧ (stW psW.position_buffer_in).length = psW.buffer_size)
    ∧ (psW.copy_positions_from_out_to_in =
        Cmd.copyBufferToBuffer psW.position_buffer_out 0 psW.position_buffer_in 0 psW.buffer_size
      ∧ applyCmd stW psW.copy_positions_from_out_to_in psW.position_buffer_in
          = stW psW.position_buffer_out) :=
  ⟨⟨by decide, by decide⟩, copy_positions_out_to_in_exact psW stW (by decide) (by decide)⟩

/-- C9: for every bin-count table, the Scan stage output is its exclusive
prefix sum: same length, entry 0 is 0, and entry `i` is entry `i-1` plus
count `i-1` for every `i` in `[1, num_bins)`.  Being a function of the
count array alone, the result is identical across repeated runs with
identical counts. -/
theorem scan_stage_exclusive_law (count : List Nat) :
    (scanStage count).length = count.length
    ∧ (scanStage count).getD 0 0 = 0
    ∧ ∀ i : Nat, 1 ≤ i → i < count.length →
        (scanStage count).getD i 0
          = (scanStage count).getD (i - 1) 0 + count.getD (i - 1) 0 := by
  refine ⟨scanStage_length count, ?_, ?_⟩
  · cases count with
    | nil => rfl
    | cons c rest =>
      rw [scanStage_getD (c :: rest) 0 (by simp)]
      simp
  · intro i h1 h2
    have him1 : i - 1 < count.length := by omega
    rw [scanStage_getD count i h2, scanStage_getD count (i - 1) him1]
    have hi : i = (i - 1) + 1 := by omega
    conv_lhs => rw [hi]
    exact sum_take_succ_getD count (i - 1) him1

/-- Witness for C9 on the count table [3, 1, 2], instantiating the
recurrence at index 1. -/
theorem scan_stage_exclusive_law_witness :
    (scanStage [3, 1, 2]).length = ([3, 1, 2] : List Nat).length
    ∧ (scanStage [3, 1, 2]).getD 0 0 = 0
    ∧ ((1 : Nat) ≤ 1 ∧ (1 : Nat) < ([3, 1, 2] : List Nat).length)
    ∧ (scanStage [3, 1, 2]).getD 1 0
        = (scanStage [3, 1, 2]).getD 0 0 + ([3, 1, 2] : List Nat).getD 0 0 :=
  ⟨(scan_stage_exclusive_law [3, 1, 2]).1,
    (scan_stage_exclusive_law [3, 1, 2]).2.1,
    ⟨by decide, by decide⟩,
    (scan_stage_exclusive_law [3, 1, 2]).2.2 1 (by decide) (by decide)⟩

/-- C10: whenever `ParticleSystem::new` returns, the in and out position
buffers are initialised with identical contents - the byte encoding of the
same sampled position list - and that list is retained host-side in
`initial_positions`. -/
theorem particle_system_new_in_out_identical (n : Nat) (sample : Nat → Vec2 × Vec2)
    (ps : ParticleSystem) (init : ParticleInit)
    (hok : ParticleSystem.new n sample = Outcome.ok (ps, init)) :
    init.position_in_contents = init.position_out_contents
    ∧ init.position_in_contents = vectors_as_byte_vec ps.initial_positions
    ∧ ps.initial_positions = (List.range n).map (fun i => (sample i).1) := by
  by_cases hn : n = 0
  · subst hn
    exact absurd hok (by intro hcontra; cases hcontra)
  · unfold ParticleSystem.new at hok
    simp only [Compute.new] at hok
    simp [hn] at hok
    obtain ⟨hps, hinit⟩ := hok
    subst hps
    subst hinit
    exact ⟨rfl, rfl, rfl⟩

/-- Witness for C10 with one particle and a concrete sampling oracle. -/
theorem particle_system_new_in_out_identical_witness :
    ParticleSystem.new 1 sW = Outcome.ok (pW, iW)
    ∧ (iW.position_in_contents = iW.position_out_contents
      ∧ iW.position_in_contents = vectors_as_byte_vec pW.initial_positions
      ∧ pW.initial_positions = (List.range 1).map (fun i => (sW i).1)) :=
  ⟨by decide, particle_system_new_in_out_identical 1 sW pW iW (by decide)⟩
